import Mathlib

/-!
Shallow embedding of pytest_marker_bugzilla.py and proofs about its
decision engine, caching layer, guard evaluation and collection hooks.

Python values that flow through the plugin are modelled by `PVal`,
bug records by association lists of attributes, the process-wide
`_bugs_pool` by an explicit association list threaded through the
operations, and the tracker client (`bugzilla.getbug`) by a function
parameter `fetch : Int -> RawBug`.  A counter `tok` is threaded along:
it is incremented exactly once per `getbug` call, so it both counts
tracker fetches and serves as the identity token of the `BugWrapper`
created from that fetch (two wrappers are the same runtime object
exactly when they are equal as values, tokens included).
-/

/-- Function objects of the plugin: the module-level function
`loose_func_gen` itself, and the inner `version_getter` closure over an
attribute name. -/
inductive FuncObj where
  | loose_func_gen_fn : FuncObj
  | version_getter : String → FuncObj
deriving DecidableEq, Repr

/-- Python values reaching the plugin: strings, ints, booleans, None,
and `property` objects wrapping a function object (as produced by
`property(loose_func_gen(attr))` in `BugWrapper.__init__`). -/
inductive PVal where
  | vstr : String → PVal
  | vint : Int → PVal
  | vbool : Bool → PVal
  | vnone : PVal
  | vprop : FuncObj → PVal
deriving DecidableEq, Repr

/-- Association-list lookup, modelling Python dict access (`d[k]`,
`k in d`) and `getattr` on plain records. -/
def alookup {κ α : Type} [BEq κ] : List (κ × α) → κ → Option α
  | [], _ => none
  | (k, v) :: rest, key => if k == key then some v else alookup rest key

/-- Raw tracker-supplied bug record: a finite map from attribute name to
value, as returned by `bugzilla.getbug`. -/
structure RawBug where
  attrs : List (String × PVal)
deriving DecidableEq, Repr

/-- Attribute read on a raw bug record. -/
def RawBug.getattr (b : RawBug) (name : String) : Option PVal :=
  alookup b.attrs name

/-- Model of `loose_func_gen(attr)`: the source defines the closure
`version_getter`, assigns its `__name__`, and then returns the function
`loose_func_gen` itself (the `return loose_func_gen` line), discarding
the closure it just built. -/
def loose_func_gen (attr : String) : FuncObj :=
  let _version_getter := FuncObj.version_getter attr
  FuncObj.loose_func_gen_fn

/-- The `BugWrapper` object: `tok` is its identity token, `instDict`
models the instance `__dict__` entries written by `setattr` in
`__init__`, and `_bug` is the wrapped raw record. -/
structure BugWrapper where
  tok : Nat
  instDict : List (String × PVal)
  _bug : RawBug
deriving DecidableEq, Repr

/-- `BugWrapper.__init__(bug, loose)`: for each name in `loose` it does
`setattr(self, name, property(loose_func_gen(name)))`, storing a
`property` object in the instance dict. -/
def BugWrapper.init (tok : Nat) (bug : RawBug) (loose : List String) : BugWrapper :=
  { tok := tok
    instDict := loose.map (fun p => (p, PVal.vprop (loose_func_gen p)))
    _bug := bug }

/-- Attribute read on a `BugWrapper`, following Python lookup: an entry
in the instance dict is returned as stored (a `property` set on an
instance is not a descriptor, so it is not invoked); only when the name
is absent does `__getattr__` relay the read to the wrapped `_bug`. -/
def BugWrapper.getattr (w : BugWrapper) (name : String) : Option PVal :=
  match alookup w.instDict name with
  | some v => some v
  | none => w._bug.getattr name

/- ----------------------------------------------------------------
LooseVersion: distutils-style parse of a version string into numeric
and textual components, used for guard contexts and for the documented
(intended) looseversion field override.
---------------------------------------------------------------- -/

/-- Component of a loose version: a run of digits (as a number) or any
other run of characters. -/
inductive VComp where
  | num : Nat → VComp
  | str : String → VComp
deriving DecidableEq, Repr

def isLowerAlpha (c : Char) : Bool := decide ('a' ≤ c) && decide (c ≤ 'z')

def digitsToNat (cs : List Char) : Nat :=
  cs.foldl (fun n c => n * 10 + (c.toNat - '0'.toNat)) 0

/-- Tokenizer of `distutils.version.LooseVersion`: split into runs of
digits, runs of lowercase letters and runs of any other characters,
dropping dots; digit runs become numbers.  The fuel argument bounds the
recursion by the length of the input. -/
def vtokenizeAux : Nat → List Char → List VComp
  | 0, _ => []
  | _, [] => []
  | fuel + 1, c :: cs =>
    if c.isDigit then
      VComp.num (digitsToNat ((c :: cs).takeWhile Char.isDigit)) ::
        vtokenizeAux fuel ((c :: cs).dropWhile Char.isDigit)
    else if isLowerAlpha c then
      VComp.str (String.mk ((c :: cs).takeWhile isLowerAlpha)) ::
        vtokenizeAux fuel ((c :: cs).dropWhile isLowerAlpha)
    else if c == '.' then
      vtokenizeAux fuel cs
    else
      VComp.str (String.mk ((c :: cs).takeWhile (fun ch =>
          !ch.isDigit && !isLowerAlpha ch && !(ch == '.')))) ::
        vtokenizeAux fuel ((c :: cs).dropWhile (fun ch =>
          !ch.isDigit && !isLowerAlpha ch && !(ch == '.')))

/-- `LooseVersion(s)` as its list of parsed components. -/
def looseParse (s : String) : List VComp :=
  vtokenizeAux s.data.length s.data

/-- Ordering of single components, as Python 2 compares them: numbers
numerically, strings lexicographically, and a number before any string
(type-name ordering of `int` vs `str`). -/
def vcompLt : VComp → VComp → Bool
  | VComp.num a, VComp.num b => decide (a < b)
  | VComp.str a, VComp.str b => decide (a < b)
  | VComp.num _, VComp.str _ => true
  | VComp.str _, VComp.num _ => false

/-- Elementwise list comparison of loose versions (Python list order). -/
def lvLt : List VComp → List VComp → Bool
  | [], [] => false
  | [], _ :: _ => true
  | _ :: _, [] => false
  | a :: as, b :: bs => if a = b then lvLt as bs else vcompLt a b

/-- Model of `re.sub` with pattern caret `[^0-9]+` and empty
replacement: drop the leading run of non-digit characters. -/
def stripLeadingNonDigits (s : String) : String :=
  String.mk (s.data.dropWhile (fun c => !c.isDigit))

/-- Modelled from the spec: the documented contract of the
looseversion field override (module docstring: fields get a getter that
returns `LooseVersion` of the raw string with its leading non-digit
prefix stripped).  The closure `version_getter` inside `loose_func_gen`
computes exactly this, but the source never installs it (see
`loose_func_gen` and `BugWrapper.init`). -/
def intendedVersionGetter (raw : String) : List VComp :=
  looseParse (stripLeadingNonDigits raw)

/- ----------------------------------------------------------------
kwargify: dynamic keyword dispatch for guard predicates.
---------------------------------------------------------------- -/

/-- The argument-collection loop of `kwargify`: walk the declared
parameter names of the guard in order; the first one absent from the
context raises a `TypeError` naming it, otherwise its value is
appended. -/
def collectKwargs {α : Type} : List String → List (String × α) → Except String (List α)
  | [], _ => Except.ok []
  | p :: ps, ctx =>
    match alookup ctx p with
    | none => Except.error ("Required parameter " ++ p ++ " not found in the context!")
    | some v =>
      match collectKwargs ps ctx with
      | Except.error e => Except.error e
      | Except.ok vs => Except.ok (v :: vs)

/-- `kwargify(f)` applied to a keyword context: collect the declared
arguments of `f` in order, then call `f` on them. -/
def kwargify {α β : Type} (argNames : List String) (f : List α → β)
    (ctx : List (String × α)) : Except String β :=
  (collectKwargs argNames ctx).map f

/- ----------------------------------------------------------------
BugzillaBugs: a bug set with the process-wide pool.
---------------------------------------------------------------- -/

/-- The process-wide `_bugs_pool` cache: bug id to wrapper. -/
abbrev Pool := List (Int × BugWrapper)

/-- A `BugzillaBugs` instance: its looseversion field names and its
declared bug ids (the tracker client is passed separately as the
`fetch` function). -/
structure BugzillaBugs where
  loose : List String
  bug_ids : List Int
deriving DecidableEq, Repr

/-- Body of the `bugs_gen` generator over a list of remaining ids:
for each id it first calls `getbug` (unconditionally, before the pool
membership test, exactly as in the source), wraps the result, inserts
it into the pool only when the id is absent, and yields the pool entry.
Returns the yielded wrappers, the final pool and the final fetch
counter. -/
def bugsGenAux (loose : List String) (fetch : Int → RawBug) :
    List Int → Pool → Nat → List BugWrapper × Pool × Nat
  | [], pool, tok => ([], pool, tok)
  | id :: ids, pool, tok =>
    let w := BugWrapper.init tok (fetch id) loose
    let pool2 := match alookup pool id with
      | some _ => pool
      | none => (id, w) :: pool
    let y := (alookup pool2 id).getD w
    let rest := bugsGenAux loose fetch ids pool2 (tok + 1)
    (y :: rest.1, rest.2.1, rest.2.2)

/-- One full iteration of the `BugzillaBugs.bugs_gen` generator. -/
def BugzillaBugs.bugs_gen (self : BugzillaBugs) (fetch : Int → RawBug)
    (pool : Pool) (tok : Nat) : List BugWrapper × Pool × Nat :=
  bugsGenAux self.loose fetch self.bug_ids pool tok

/-- The `for bug_id in self.bug_ids` loop of `BugzillaBugs.bug`, with
its `else: raise ValueError` clause when no declared id matches. -/
def bugFindLoop (loose : List String) (fetch : Int → RawBug) (id : Int)
    (tok : Nat) (pool : Pool) : List Int → Except String (BugWrapper × Pool × Nat)
  | [] => Except.error ("Could not find bug with id " ++ toString id)
  | bug_id :: rest =>
    if id == bug_id then
      let w := BugWrapper.init tok (fetch bug_id) loose
      Except.ok (w, (bug_id, w) :: pool, tok + 1)
    else bugFindLoop loose fetch id tok pool rest

/-- `BugzillaBugs.bug(id)` (the id is already normalized to an integer,
modelling the `id = int(id)` line): the global pool is consulted first
and a hit is returned regardless of membership in `bug_ids`; only on a
miss is the declared-id loop entered. -/
def BugzillaBugs.bug (self : BugzillaBugs) (fetch : Int → RawBug)
    (pool : Pool) (tok : Nat) (id : Int) : Except String (BugWrapper × Pool × Nat) :=
  match alookup pool id with
  | some w => Except.ok (w, pool, tok)
  | none => bugFindLoop self.loose fetch id tok pool self.bug_ids

/- ----------------------------------------------------------------
Decision engine: BugzillaHooks.pytest_runtest_setup and the two guard
evaluators.
---------------------------------------------------------------- -/

/-- The membership test `bug.status in` the set `NEW, ASSIGNED, ON_DEV`
(the source negates it); a non-string status value is not a member. -/
def statusOpen (b : BugWrapper) : Bool :=
  match b.getattr "status" with
  | some (PVal.vstr s) => s == "NEW" || s == "ASSIGNED" || s == "ON_DEV"
  | _ => false

/-- The `will_skip` and `skippers` accumulation loop of
`pytest_runtest_setup`: `will_skip` starts `True`; a bug whose status
left the open set clears it, an open bug is appended to `skippers`. -/
def statusFold (bugs : List BugWrapper) : Bool × List BugWrapper :=
  bugs.foldl
    (fun acc bug =>
      if statusOpen bug then (acc.1, acc.2 ++ [bug]) else (false, acc.2))
    (true, [])

/-- Rendering a value with str-formatting, as `"...".format` does. -/
def pvalFormat : PVal → String
  | PVal.vstr s => s
  | PVal.vint n => toString n
  | PVal.vbool b => if b then "True" else "False"
  | PVal.vnone => "None"
  | PVal.vprop _ => "property object"

def bugAttrStr (b : BugWrapper) (name : String) : String :=
  pvalFormat ((b.getattr name).getD PVal.vnone)

/-- Python `str.replace`, replacing every occurrence of `pat`. -/
def replChars (pat rep : List Char) : Nat → List Char → List Char
  | _, [] => []
  | 0, cs => cs
  | fuel + 1, c :: cs =>
    if pat ≠ [] ∧ pat.isPrefixOf (c :: cs) then
      rep ++ replChars pat rep fuel (List.drop pat.length (c :: cs))
    else
      c :: replChars pat rep fuel cs

def pyReplace (s pat rep : String) : String :=
  String.mk (replChars pat.data rep.data s.data.length s.data)

/-- The url computed in `pytest_runtest_setup`: the xmlrpc endpoint of
the tracker with `xmlrpc.cgi` replaced by `show_bug.cgi`, followed by
the id query prefix. -/
def showBugUrl (bugzillaUrl : String) : String :=
  pyReplace bugzillaUrl "xmlrpc.cgi" "show_bug.cgi" ++ "?id="

/-- One line of the status-rule skip reason: status, a space, then the
show-bug url directly followed by the bug id. -/
def statusLine (url : String) (b : BugWrapper) : String :=
  bugAttrStr b "status" ++ " " ++ url ++ bugAttrStr b "id"

/-- The full status-rule skip reason string. -/
def statusSkipReason (url : String) (skippers : List BugWrapper) : String :=
  "Skipping this test because all of these assigned bugs:\n" ++
    String.intercalate "\n" (skippers.map (statusLine url))

/-- A guard context value: either the bug wrapper or the parsed product
version. -/
inductive CtxVal where
  | cbug : BugWrapper → CtxVal
  | cver : List VComp → CtxVal

/-- A kwargified guard: a function from a keyword context to a boolean,
or a TypeError. -/
abbrev Guard := List (String × CtxVal) → Except String Bool

/-- The context built per bug per guard evaluation. -/
def guardContext (bug : BugWrapper) (version : List VComp) : List (String × CtxVal) :=
  [("bug", CtxVal.cbug bug), ("version", CtxVal.cver version)]

/-- The kwargified form of a pure predicate over bug and version, as
`kwargify` produces for a guard declaring both parameters. -/
def liftGuard (p : BugWrapper → List VComp → Bool) : Guard := fun ctx =>
  match alookup ctx "bug", alookup ctx "version" with
  | some (CtxVal.cbug b), some (CtxVal.cver v) => Except.ok (p b v)
  | _, _ => Except.error "Required parameter not found in the context!"

/-- The kwargified default guard `lambda: False` (zero declared
parameters, so it never consults the context). -/
def constFalseGuard : Guard := fun _ => Except.ok false

/-- Result of `evaluate_skip`: a TypeError from the guard, a raised
skip, or falling through. -/
inductive SkipEval where
  | err : String → SkipEval
  | skip : String → SkipEval
  | noSkip : SkipEval
deriving DecidableEq, Repr

/-- `BugzillaHooks.evaluate_skip`: per bug, build the context and call
the guard; the first bug where it returns true raises `pytest.skip`
with the fixed reason, ending the loop. -/
def evaluate_skip (skipGuard : Guard) (version : List VComp) :
    List BugWrapper → SkipEval
  | [] => SkipEval.noSkip
  | b :: bs =>
    match skipGuard (guardContext b version) with
    | Except.error e => SkipEval.err e
    | Except.ok true => SkipEval.skip "Skipped due to a given condition!"
    | Except.ok false => evaluate_skip skipGuard version bs

/-- `BugzillaHooks.evaluate_xfail`: evaluate the guard for every bug,
collecting in order all bugs where it returns true. -/
def evaluate_xfail (xfailGuard : Guard) (version : List VComp) :
    List BugWrapper → Except String (List BugWrapper)
  | [] => Except.ok []
  | b :: bs =>
    match xfailGuard (guardContext b version) with
    | Except.error e => Except.error e
    | Except.ok t =>
      match evaluate_xfail xfailGuard version bs with
      | Except.error e => Except.error e
      | Except.ok rest => Except.ok (if t then b :: rest else rest)

/-- The xfail marker reason attached in `pytest_runtest_setup`. -/
def xfailReason (url : String) (xfailed : List BugWrapper) : String :=
  "xfailing due to bugs: " ++
    String.intercalate ", " (xfailed.map (fun b => url ++ bugAttrStr b "id"))

/-- Outcome of the setup hook for a marked test: skipped with a reason,
a guard TypeError, or completion carrying the optional xfail reason. -/
inductive SetupOutcome where
  | skipped : String → SetupOutcome
  | guardErr : String → SetupOutcome
  | done : Option String → SetupOutcome
deriving DecidableEq, Repr

/-- `BugzillaHooks.pytest_runtest_setup` for a test carrying the
bugzilla marker, over the list of wrappers yielded by `bugs_gen` (the
pool is stable across iterations, so the same wrappers are seen by the
status loop and both guard evaluators): the status rule first, then the
skip guard, then the xfail guard; the guard context version is
`LooseVersion` of the configured product version. -/
def pytest_runtest_setup (bugzillaUrl selfVersion : String)
    (skipGuard xfailGuard : Guard) (bugs : List BugWrapper) : SetupOutcome :=
  let folded := statusFold bugs
  let url := showBugUrl bugzillaUrl
  if folded.1 then
    SetupOutcome.skipped (statusSkipReason url folded.2)
  else
    match evaluate_skip skipGuard (looseParse selfVersion) bugs with
    | SkipEval.err e => SetupOutcome.guardErr e
    | SkipEval.skip r => SetupOutcome.skipped r
    | SkipEval.noSkip =>
      match evaluate_xfail xfailGuard (looseParse selfVersion) bugs with
      | Except.error e => SetupOutcome.guardErr e
      | Except.ok [] => SetupOutcome.done none
      | Except.ok xs => SetupOutcome.done (some (xfailReason url xs))

/- ----------------------------------------------------------------
Collection hook: canonicalization of marker args and sharing of
BugzillaBugs instances.
---------------------------------------------------------------- -/

/-- A bug id argument of the marker: string or integer form. -/
inductive MarkerArg where
  | astr : String → MarkerArg
  | aint : Int → MarkerArg
deriving DecidableEq, Repr

/-- Python `int(s)` on a decimal string (optionally negative); other
strings raise. -/
def pyIntOfString (s : String) : Option Int :=
  match s.data with
  | [] => none
  | '-' :: rest =>
    if rest ≠ [] ∧ rest.all Char.isDigit then some (-(digitsToNat rest : Int)) else none
  | cs => if cs.all Char.isDigit then some ((digitsToNat cs : Int)) else none

/-- `int(arg)` on a marker argument. -/
def markerArgToInt : MarkerArg → Option Int
  | MarkerArg.aint n => some n
  | MarkerArg.astr s => pyIntOfString s

/-- `map(int, marker.args)`: all arguments normalized to integers. -/
def argsToInts : List MarkerArg → Option (List Int)
  | [] => some []
  | a :: as =>
    match markerArgToInt a, argsToInts as with
    | some n, some ns => some (n :: ns)
    | _, _ => none

/-- `tuple(sorted(set(map(int, marker.args))))`: the canonical
ascending duplicate-free key a marker arg list is cached under. -/
def canonBugs (args : List MarkerArg) : Option (List Int) :=
  (argsToInts args).map (fun xs => List.insertionSort (fun a b => a ≤ b) xs.dedup)

/-- The per-run cache of the collection hook: canonical key to the
creation index of the `BugzillaBugs` instance built for it. -/
abbrev BugsetCache := List (List Int × Nat)

/-- `BugzillaHooks.pytest_collection_modifyitems` over the marked
items, each given by its marker arg list: compute the canonical key,
reuse the cached instance when the key was seen, otherwise create a
fresh instance (identified by the running creation index `next`).  The
result is, per item, the attached pair of canonical key and instance
index. -/
def pytest_collection_modifyitems :
    List (List MarkerArg) → BugsetCache → Nat → List (Option (List Int × Nat))
  | [], _, _ => []
  | args :: rest, cache, next =>
    match canonBugs args with
    | none => none :: pytest_collection_modifyitems rest cache next
    | some key =>
      match alookup cache key with
      | some t => some (key, t) :: pytest_collection_modifyitems rest cache next
      | none =>
        some (key, next) ::
          pytest_collection_modifyitems rest ((key, next) :: cache) (next + 1)

/-- Wellformedness of a wrapper for the status rule: its status and id
attributes exist with the types the hook formats (Python would raise
`AttributeError` on a record lacking them). -/
def wfBug (b : BugWrapper) : Bool :=
  (match b.getattr "status" with
   | some (PVal.vstr _) => true
   | _ => false) &&
  (match b.getattr "id" with
   | some (PVal.vint _) => true
   | _ => false)

/- ----------------------------------------------------------------
Concrete example data used by counterexamples and witnesses.
---------------------------------------------------------------- -/

/-- A concrete tracker client: every id resolves to a NEW bug. -/
def exFetch : Int → RawBug := fun i =>
  RawBug.mk [("id", PVal.vint i), ("status", PVal.vstr "NEW"), ("summary", PVal.vstr "s")]

def exNewBug : BugWrapper := BugWrapper.init 0 (exFetch 1) []

def exClosedBug : BugWrapper :=
  BugWrapper.init 0 (RawBug.mk [("id", PVal.vint 2), ("status", PVal.vstr "CLOSED")]) []

def exUrl : String := "https://bz.example.com/xmlrpc.cgi"

/- ----------------------------------------------------------------
Helper lemmas.
---------------------------------------------------------------- -/

theorem statusFold_go_fst (bugs : List BugWrapper) :
    ∀ (flag : Bool) (acc : List BugWrapper),
      (bugs.foldl
        (fun acc2 bug => if statusOpen bug then (acc2.1, acc2.2 ++ [bug]) else (false, acc2.2))
        (flag, acc)).1 = (flag && bugs.all statusOpen) := by
  induction bugs with
  | nil => intro flag acc; simp
  | cons b bs ih =>
    intro flag acc
    by_cases h : statusOpen b
    · simp [h, ih]
    · simp [h, ih]

theorem statusFold_fst (bugs : List BugWrapper) :
    (statusFold bugs).1 = bugs.all statusOpen := by
  simpa [statusFold] using statusFold_go_fst bugs true []

theorem statusFold_go_all (bugs : List BugWrapper)
    (h : ∀ b ∈ bugs, statusOpen b = true) :
    ∀ (flag : Bool) (acc : List BugWrapper),
      bugs.foldl
        (fun acc2 bug => if statusOpen bug then (acc2.1, acc2.2 ++ [bug]) else (false, acc2.2))
        (flag, acc) = (flag, acc ++ bugs) := by
  induction bugs with
  | nil => intro flag acc; simp
  | cons b bs ih =>
    intro flag acc
    have hb : statusOpen b = true := h b (by simp)
    have ih2 := ih (fun x hx => h x (by simp [hx])) flag (acc ++ [b])
    simp [hb, ih2]

theorem statusFold_all (bugs : List BugWrapper)
    (h : ∀ b ∈ bugs, statusOpen b = true) :
    statusFold bugs = (true, bugs) := by
  simpa [statusFold] using statusFold_go_all bugs h true []

theorem liftGuard_apply (p : BugWrapper → List VComp → Bool)
    (b : BugWrapper) (v : List VComp) :
    liftGuard p (guardContext b v) = Except.ok (p b v) := rfl

theorem evaluate_skip_constFalse (v : List VComp) (bugs : List BugWrapper) :
    evaluate_skip constFalseGuard v bugs = SkipEval.noSkip := by
  induction bugs with
  | nil => rfl
  | cons b bs ih => simpa [evaluate_skip, constFalseGuard] using ih

theorem evaluate_xfail_constFalse (v : List VComp) (bugs : List BugWrapper) :
    evaluate_xfail constFalseGuard v bugs = Except.ok [] := by
  induction bugs with
  | nil => rfl
  | cons b bs ih => simp [evaluate_xfail, constFalseGuard, ih]

theorem evaluate_skip_liftFalse (p : BugWrapper → List VComp → Bool)
    (v : List VComp) (bugs : List BugWrapper)
    (h : ∀ x ∈ bugs, p x v = false) :
    evaluate_skip (liftGuard p) v bugs = SkipEval.noSkip := by
  induction bugs with
  | nil => rfl
  | cons b bs ih =>
    have hb : p b v = false := h b (by simp)
    have := ih (fun x hx => h x (by simp [hx]))
    simp [evaluate_skip, liftGuard_apply, hb, this]

/- ----------------------------------------------------------------
C1: status-aggregation rule of pytest_runtest_setup.
---------------------------------------------------------------- -/

/-- C1: for a non-empty bug set attached to a test (with status and id
attributes present), the status rule skips exactly when every bug has a
status in the set NEW, ASSIGNED, ON_DEV; in that case the outcome is a
skip whose reason lists, per bug, its status, the show-bug tracker url
and its id; when at least one bug has left that status set, the status
rule does not fire and (with no guards configured) the test runs. -/
theorem status_rule_skip_spec
    (bugzillaUrl selfVersion : String) (bugs : List BugWrapper)
    (hne : bugs ≠ [])
    (hwf : ∀ b ∈ bugs, wfBug b = true) :
    ((statusFold bugs).1 = true ↔ ∀ b ∈ bugs, statusOpen b = true)
    ∧ ((∀ b ∈ bugs, statusOpen b = true) →
        ∀ sg xg : Guard,
          pytest_runtest_setup bugzillaUrl selfVersion sg xg bugs =
            SetupOutcome.skipped
              ("Skipping this test because all of these assigned bugs:\n" ++
                String.intercalate "\n"
                  (bugs.map (fun b =>
                    bugAttrStr b "status" ++ " " ++ showBugUrl bugzillaUrl ++
                      bugAttrStr b "id"))))
    ∧ ((∃ b ∈ bugs, statusOpen b = false) →
        pytest_runtest_setup bugzillaUrl selfVersion constFalseGuard constFalseGuard bugs =
          SetupOutcome.done none) := by
  refine ⟨?_, ?_, ?_⟩
  · rw [statusFold_fst]
    simp
  · intro h sg xg
    have hsf := statusFold_all bugs h
    simp only [pytest_runtest_setup, hsf, statusSkipReason]
    rfl
  · rintro ⟨b, hb, hopen⟩
    have hfst : (statusFold bugs).1 = false := by
      rw [statusFold_fst]
      simp only [List.all_eq_false]
      exact ⟨b, hb, by simp [hopen]⟩
    simp [pytest_runtest_setup, hfst, evaluate_skip_constFalse, evaluate_xfail_constFalse]

def exBugsC1 : List BugWrapper := [exNewBug]

theorem status_rule_skip_spec_witness :
    (exBugsC1 ≠ []) ∧ (∀ b ∈ exBugsC1, wfBug b = true) ∧
    (((statusFold exBugsC1).1 = true ↔ ∀ b ∈ exBugsC1, statusOpen b = true)
     ∧ ((∀ b ∈ exBugsC1, statusOpen b = true) →
        ∀ sg xg : Guard,
          pytest_runtest_setup exUrl "1" sg xg exBugsC1 =
            SetupOutcome.skipped
              ("Skipping this test because all of these assigned bugs:\n" ++
                String.intercalate "\n"
                  (exBugsC1.map (fun b =>
                    bugAttrStr b "status" ++ " " ++ showBugUrl exUrl ++
                      bugAttrStr b "id"))))
     ∧ ((∃ b ∈ exBugsC1, statusOpen b = false) →
        pytest_runtest_setup exUrl "1" constFalseGuard constFalseGuard exBugsC1 =
          SetupOutcome.done none)) :=
  ⟨by decide, by decide, status_rule_skip_spec exUrl "1" exBugsC1 (by decide) (by decide)⟩

/- ----------------------------------------------------------------
C2: behavior of the status rule on an empty bug set.
---------------------------------------------------------------- -/

/-- C2 counterexample: an empty attached bug set IS skipped by the
status-aggregation step (`will_skip` is initialized `True` and never
cleared), with a reason listing no bugs; the claim says the step does
not skip and evaluation continues to the guards. -/
theorem empty_bugset_skips_counterexample :
    pytest_runtest_setup exUrl "1" constFalseGuard constFalseGuard [] =
      SetupOutcome.skipped "Skipping this test because all of these assigned bugs:\n" := by
  decide

/-- C2 amended: for a test whose attached bug set is empty, the
status-aggregation step treats the set as vacuously all-open and skips
the test, with a reason listing no bugs; the guard steps are never
reached. -/
theorem empty_bugset_status_rule (bugzillaUrl selfVersion : String) (sg xg : Guard) :
    pytest_runtest_setup bugzillaUrl selfVersion sg xg [] =
      SetupOutcome.skipped "Skipping this test because all of these assigned bugs:\n" := by
  have hr : statusSkipReason (showBugUrl bugzillaUrl) [] =
      "Skipping this test because all of these assigned bugs:\n" := by
    simp [statusSkipReason, String.intercalate]
  simp [pytest_runtest_setup, statusFold, hr]

/- ----------------------------------------------------------------
C3: caching behavior of bugs_gen.
---------------------------------------------------------------- -/

def exSet1 : BugzillaBugs := { loose := [], bug_ids := [1] }

def exW0 : BugWrapper := BugWrapper.init 0 (exFetch 1) []

/-- C3: iterating `bugs_gen` for the set with id 1 twice, starting from
an empty pool.  The first iteration performs one fetch (counter 0 to 1)
and caches the wrapper `exW0`; the second iteration yields the very
same cached wrapper `exW0` and leaves the pool unchanged (first
resolution wins), BUT its fetch counter moves from 1 to 2: the source
calls `getbug` on every iteration before consulting the pool, so a
second resolution does issue an additional tracker fetch, whose result
is discarded.  This contradicts the claim (and the comment `Cache bugs
for greater speed`), while the identity-stable half of the claim
holds. -/
theorem bugs_gen_refetch_counterexample :
    exSet1.bugs_gen exFetch [] 0 = ([exW0], [(1, exW0)], 1)
    ∧ exSet1.bugs_gen exFetch [(1, exW0)] 1 = ([exW0], [(1, exW0)], 2) := by
  decide

/- ----------------------------------------------------------------
C4: BugzillaBugs.bug lookup scoping.
---------------------------------------------------------------- -/

def exW5 : BugWrapper := BugWrapper.init 0 (exFetch 5) []

/-- C4 counterexample: the set declares only bug id 1, yet looking up
id 5 while a record for 5 sits in the process-wide pool returns that
cached record instead of failing with NotFound: the source consults
the global pool before checking membership in `bug_ids`. -/
theorem bug_lookup_cached_nonmember_counterexample :
    exSet1.bug exFetch [(5, exW5)] 1 5 = Except.ok (exW5, [(5, exW5)], 1) := by
  rfl

/-- C4 amended: `BugzillaBugs.bug` returns the globally cached record
for any cached id, even one outside the set declared ids; the NotFound
error (ValueError) is raised only when the id is neither cached nor
among the declared ids; a declared, uncached id is fetched, cached and
returned. -/
theorem bug_lookup_spec (self : BugzillaBugs) (fetch : Int → RawBug)
    (pool : Pool) (tok : Nat) (id : Int) :
    (∀ w : BugWrapper, alookup pool id = some w →
      self.bug fetch pool tok id = Except.ok (w, pool, tok))
    ∧ (alookup pool id = none → id ∉ self.bug_ids →
      self.bug fetch pool tok id =
        Except.error ("Could not find bug with id " ++ toString id))
    ∧ (alookup pool id = none → id ∈ self.bug_ids →
      self.bug fetch pool tok id =
        Except.ok (BugWrapper.init tok (fetch id) self.loose,
          (id, BugWrapper.init tok (fetch id) self.loose) :: pool, tok + 1)) := by
  refine ⟨?_, ?_, ?_⟩
  · intro w hw
    simp [BugzillaBugs.bug, hw]
  · intro hmiss hnm
    have hloop : ∀ ids : List Int, id ∉ ids →
        bugFindLoop self.loose fetch id tok pool ids =
          Except.error ("Could not find bug with id " ++ toString id) := by
      intro ids
      induction ids with
      | nil => intro _; rfl
      | cons x xs ih =>
        intro hx
        have hne : ¬(id == x) = true := by
          simp only [beq_iff_eq]
          intro he
          exact hx (by simp [he])
        simp [bugFindLoop, hne, ih (fun hm => hx (by simp [hm]))]
    simp [BugzillaBugs.bug, hmiss, hloop self.bug_ids hnm]
  · intro hmiss hm
    have hloop : ∀ ids : List Int, id ∈ ids →
        bugFindLoop self.loose fetch id tok pool ids =
          Except.ok (BugWrapper.init tok (fetch id) self.loose,
            (id, BugWrapper.init tok (fetch id) self.loose) :: pool, tok + 1) := by
      intro ids
      induction ids with
      | nil => intro h; exact absurd h (by simp)
      | cons x xs ih =>
        intro hx
        by_cases he : id = x
        · subst he
          simp [bugFindLoop]
        · have hne : ¬(id == x) = true := by simp [he]
          have hxs : id ∈ xs := by
            rcases List.mem_cons.mp hx with h1 | h2
            · exact absurd h1 he
            · exact h2
          simp [bugFindLoop, hne, ih hxs]
    simp [BugzillaBugs.bug, hmiss, hloop self.bug_ids hm]

theorem bug_lookup_spec_witness :
    exSet1.bug exFetch [(5, exW5)] 0 5 = Except.ok (exW5, [(5, exW5)], 0)
    ∧ exSet1.bug exFetch [] 0 7 = Except.error "Could not find bug with id 7"
    ∧ exSet1.bug exFetch [] 0 1 =
        Except.ok (BugWrapper.init 0 (exFetch 1) [], [(1, BugWrapper.init 0 (exFetch 1) [])], 1) :=
  ⟨(bug_lookup_spec exSet1 exFetch [(5, exW5)] 0 5).1 exW5 (by decide),
   ((bug_lookup_spec exSet1 exFetch [] 0 7).2.1 (by decide) (by decide)).trans (by rfl),
   (bug_lookup_spec exSet1 exFetch [] 0 1).2.2 (by decide) (by decide)⟩

/- ----------------------------------------------------------------
C5: skip-guard evaluation.
---------------------------------------------------------------- -/

theorem evaluate_skip_first_true (p : BugWrapper → List VComp → Bool) (v : List VComp) :
    ∀ (pre : List BugWrapper) (b : BugWrapper) (post : List BugWrapper),
      (∀ x ∈ pre, p x v = false) → p b v = true →
      evaluate_skip (liftGuard p) v (pre ++ b :: post) =
        SkipEval.skip "Skipped due to a given condition!" := by
  intro pre
  induction pre with
  | nil =>
    intro b post _ hb
    simp [evaluate_skip, liftGuard_apply, hb]
  | cons x xs ih =>
    intro b post hpre hb
    have hx : p x v = false := hpre x (by simp)
    simpa [evaluate_skip, liftGuard_apply, hx] using
      ih b post (fun y hy => hpre y (by simp [hy])) hb

/-- C5: with a skip-guard configured and the status rule not firing,
the guard is evaluated per bug in order with the bug-and-version
context; the first bug where it returns true raises the skip with the
fixed generic reason, and the bugs after it never influence the
outcome (they are quantified freely); a guard returning true for no
bug never skips on this path. -/
theorem skip_guard_spec
    (bugzillaUrl selfVersion : String) (p : BugWrapper → List VComp → Bool)
    (pre post : List BugWrapper) (b : BugWrapper) (xg : Guard)
    (hpre : ∀ x ∈ pre, p x (looseParse selfVersion) = false)
    (hb : p b (looseParse selfVersion) = true)
    (hopen : (statusFold (pre ++ b :: post)).1 = false) :
    evaluate_skip (liftGuard p) (looseParse selfVersion) (pre ++ b :: post) =
      SkipEval.skip "Skipped due to a given condition!"
    ∧ pytest_runtest_setup bugzillaUrl selfVersion (liftGuard p) xg (pre ++ b :: post) =
      SetupOutcome.skipped "Skipped due to a given condition!"
    ∧ (∀ bugs2 : List BugWrapper,
        (∀ x ∈ bugs2, p x (looseParse selfVersion) = false) →
        evaluate_skip (liftGuard p) (looseParse selfVersion) bugs2 = SkipEval.noSkip) := by
  have he := evaluate_skip_first_true p (looseParse selfVersion) pre b post hpre hb
  refine ⟨he, ?_, ?_⟩
  · simp [pytest_runtest_setup, hopen, he]
  · intro bugs2 h2
    exact evaluate_skip_liftFalse p (looseParse selfVersion) bugs2 h2

theorem skip_guard_spec_witness :
    (∀ x ∈ ([] : List BugWrapper), (fun (_ : BugWrapper) (_ : List VComp) => true) x (looseParse "1") = false)
    ∧ (fun (_ : BugWrapper) (_ : List VComp) => true) exClosedBug (looseParse "1") = true
    ∧ (statusFold ([] ++ exClosedBug :: [])).1 = false
    ∧ (evaluate_skip (liftGuard (fun _ _ => true)) (looseParse "1") ([] ++ exClosedBug :: []) =
        SkipEval.skip "Skipped due to a given condition!"
      ∧ pytest_runtest_setup exUrl "1" (liftGuard (fun _ _ => true)) constFalseGuard
          ([] ++ exClosedBug :: []) =
        SetupOutcome.skipped "Skipped due to a given condition!"
      ∧ (∀ bugs2 : List BugWrapper,
          (∀ x ∈ bugs2, (fun (_ : BugWrapper) (_ : List VComp) => true) x (looseParse "1") = false) →
          evaluate_skip (liftGuard (fun _ _ => true)) (looseParse "1") bugs2 = SkipEval.noSkip)) :=
  ⟨by decide, by decide, by decide,
   skip_guard_spec exUrl "1" (fun _ _ => true) [] [] exClosedBug constFalseGuard
     (by decide) (by decide) (by decide)⟩

/- ----------------------------------------------------------------
C6: xfail-guard evaluation.
---------------------------------------------------------------- -/

theorem evaluate_xfail_lift (p : BugWrapper → List VComp → Bool) (v : List VComp) :
    ∀ bugs : List BugWrapper,
      evaluate_xfail (liftGuard p) v bugs = Except.ok (bugs.filter (fun b => p b v)) := by
  intro bugs
  induction bugs with
  | nil => rfl
  | cons b bs ih =>
    cases hpb : p b v <;>
      simp [evaluate_xfail, liftGuard_apply, ih, List.filter_cons, hpb]

/-- C6: with an xfail-guard configured and the test not skipped, the
guard is evaluated for every bug with no short-circuit, collecting in
order exactly the bugs where it returns true; the setup outcome is the
expected-failure marker exactly when this collection is non-empty, and
its reason enumerates the contributing bug ids with their tracker
urls. -/
theorem xfail_guard_spec
    (bugzillaUrl selfVersion : String) (p : BugWrapper → List VComp → Bool)
    (bugs : List BugWrapper)
    (hopen : (statusFold bugs).1 = false) :
    evaluate_xfail (liftGuard p) (looseParse selfVersion) bugs =
      Except.ok (bugs.filter (fun b => p b (looseParse selfVersion)))
    ∧ pytest_runtest_setup bugzillaUrl selfVersion constFalseGuard (liftGuard p) bugs =
        (if bugs.filter (fun b => p b (looseParse selfVersion)) = [] then
          SetupOutcome.done none
        else
          SetupOutcome.done (some ("xfailing due to bugs: " ++
            String.intercalate ", "
              ((bugs.filter (fun b => p b (looseParse selfVersion))).map
                (fun b => showBugUrl bugzillaUrl ++ bugAttrStr b "id"))))) := by
  refine ⟨evaluate_xfail_lift p (looseParse selfVersion) bugs, ?_⟩
  cases hL : bugs.filter (fun b => p b (looseParse selfVersion)) with
  | nil =>
    simp [pytest_runtest_setup, hopen, evaluate_skip_constFalse,
      evaluate_xfail_lift, hL]
  | cons y ys =>
    simp [pytest_runtest_setup, hopen, evaluate_skip_constFalse,
      evaluate_xfail_lift, hL, xfailReason]

theorem xfail_guard_spec_witness :
    (statusFold [exClosedBug]).1 = false
    ∧ (evaluate_xfail (liftGuard (fun _ _ => true)) (looseParse "1") [exClosedBug] =
        Except.ok ([exClosedBug].filter (fun b => (fun (_ : BugWrapper) (_ : List VComp) => true) b (looseParse "1")))
      ∧ pytest_runtest_setup exUrl "1" constFalseGuard (liftGuard (fun _ _ => true)) [exClosedBug] =
          (if [exClosedBug].filter (fun b => (fun (_ : BugWrapper) (_ : List VComp) => true) b (looseParse "1")) = [] then
            SetupOutcome.done none
          else
            SetupOutcome.done (some ("xfailing due to bugs: " ++
              String.intercalate ", "
                (([exClosedBug].filter (fun b => (fun (_ : BugWrapper) (_ : List VComp) => true) b (looseParse "1"))).map
                  (fun b => showBugUrl exUrl ++ bugAttrStr b "id")))))) :=
  ⟨by decide, xfail_guard_spec exUrl "1" (fun _ _ => true) [exClosedBug] (by decide)⟩

/- ----------------------------------------------------------------
C7: kwargify.
---------------------------------------------------------------- -/

theorem collectKwargs_missing {α : Type} :
    ∀ (pre : List String) (p : String) (post : List String) (ctx : List (String × α)),
      (∀ q ∈ pre, alookup ctx q ≠ none) → alookup ctx p = none →
      collectKwargs (pre ++ p :: post) ctx =
        Except.error ("Required parameter " ++ p ++ " not found in the context!") := by
  intro pre
  induction pre with
  | nil =>
    intro p post ctx _ hm
    simp [collectKwargs, hm]
  | cons q qs ih =>
    intro p post ctx hpre hm
    obtain ⟨v, hv⟩ : ∃ v, alookup ctx q = some v := by
      cases h : alookup ctx q
      · exact absurd h (hpre q (by simp))
      · exact ⟨_, rfl⟩
    simp [collectKwargs, hv, ih p post ctx (fun r hr => hpre r (by simp [hr])) hm]

theorem collectKwargs_present {α : Type} [Inhabited α] :
    ∀ (params : List String) (ctx : List (String × α)),
      (∀ q ∈ params, alookup ctx q ≠ none) →
      collectKwargs params ctx =
        Except.ok (params.map (fun q => (alookup ctx q).getD default)) := by
  intro params
  induction params with
  | nil => intro ctx _; rfl
  | cons q qs ih =>
    intro ctx hpre
    obtain ⟨v, hv⟩ : ∃ v, alookup ctx q = some v := by
      cases h : alookup ctx q
      · exact absurd h (hpre q (by simp))
      · exact ⟨_, rfl⟩
    simp [collectKwargs, hv, ih ctx (fun r hr => hpre r (by simp [hr]))]

/-- C7: the kwargify adapter, given the declared parameter names of a
guard and a keyword context: a declared name absent from the context
yields a TypeError naming that parameter, with the guard body never
consulted (the result is the same for every body `g`); when all
declared names are present the guard is applied to exactly their
values, in declared order; a guard declaring zero parameters is a
constant, independent of the context. -/
theorem kwargify_spec {α β : Type} [Inhabited α]
    (f : List α → β) (ctx : List (String × α)) :
    (∀ (pre : List String) (p : String) (post : List String),
        (∀ q ∈ pre, alookup ctx q ≠ none) → alookup ctx p = none →
        ∀ g : List α → β,
          kwargify (pre ++ p :: post) g ctx =
            Except.error ("Required parameter " ++ p ++ " not found in the context!"))
    ∧ (∀ params : List String, (∀ q ∈ params, alookup ctx q ≠ none) →
        kwargify params f ctx =
          Except.ok (f (params.map (fun q => (alookup ctx q).getD default))))
    ∧ (∀ ctx2 : List (String × α), kwargify [] f ctx2 = Except.ok (f [])) := by
  refine ⟨?_, ?_, ?_⟩
  · intro pre p post hpre hm g
    simp [kwargify, collectKwargs_missing pre p post ctx hpre hm, Except.map]
  · intro params hpre
    simp [kwargify, collectKwargs_present params ctx hpre, Except.map]
  · intro ctx2
    rfl

theorem kwargify_spec_witness :
    kwargify ["bug", "frobz"] (fun l : List Nat => l.length) [("bug", 1), ("version", 2)] =
      Except.error "Required parameter frobz not found in the context!"
    ∧ kwargify ["version", "bug"] (fun l : List Nat => l.length) [("bug", 1), ("version", 2)] =
      Except.ok 2
    ∧ kwargify [] (fun _ : List Nat => 7) [("bug", 1), ("version", 2)] = Except.ok 7 :=
  ⟨((kwargify_spec (fun l : List Nat => l.length) [("bug", 1), ("version", 2)]).1
      ["bug"] "frobz" [] (by decide) (by decide) (fun l => l.length)).trans (by rfl),
   ((kwargify_spec (fun l : List Nat => l.length) [("bug", 1), ("version", 2)]).2.1
      ["version", "bug"] (by decide)).trans (by rfl),
   (kwargify_spec (fun _ : List Nat => 7) [("bug", 1), ("version", 2)]).2.2
      [("bug", 1), ("version", 2)]⟩

/- ----------------------------------------------------------------
C8: the looseversion field override.
---------------------------------------------------------------- -/

def exRawFixedIn : RawBug :=
  RawBug.mk [("fixed_in", PVal.vstr "rhel-7.3"), ("id", PVal.vint 3)]

def exLooseWrapper : BugWrapper := BugWrapper.init 0 exRawFixedIn ["fixed_in"]

/-- C8: with `fixed_in` configured as a looseversion field and a raw
value of `rhel-7.3`, reading the attribute on the wrapper returns the
`property` object wrapping the function `loose_func_gen` stored in the
instance dict (the source both returns the wrong function from
`loose_func_gen` and installs the property on the instance, where it
is inert) rather than any version value.  The remaining conjuncts
check the documented intent the claim states: stripping the non-digit
prefix of `rhel-7.3` yields the version `7.3`, differently-prefixed
raw strings with the same numeric remainder give equal versions, and
`7.3` orders strictly above `7.2`. -/
theorem looseversion_override_broken :
    exLooseWrapper.getattr "fixed_in" = some (PVal.vprop FuncObj.loose_func_gen_fn)
    ∧ intendedVersionGetter "rhel-7.3" = looseParse "7.3"
    ∧ intendedVersionGetter "foo:7.3" = intendedVersionGetter "rhel-7.3"
    ∧ lvLt (looseParse "7.2") (looseParse "7.3") = true
    ∧ lvLt (looseParse "7.3") (looseParse "7.2") = false := by
  decide

/- ----------------------------------------------------------------
C10: transparent delegation of BugWrapper and frame condition.
---------------------------------------------------------------- -/

theorem alookup_instdict_none (name : String) :
    ∀ loose : List String, name ∉ loose →
      alookup (loose.map (fun p => (p, PVal.vprop (loose_func_gen p)))) name = none := by
  intro loose
  induction loose with
  | nil => intro _; rfl
  | cons x xs ih =>
    intro h
    have hx : ¬(x == name) = true := by
      simp only [beq_iff_eq]
      intro he
      exact h (by simp [he])
    simp only [List.map_cons, alookup, hx, if_false]
    exact ih (fun hm => h (by simp [hm]))

/-- C10: for any attribute name not among the names set on the wrapper
itself (the configured looseversion fields), reading it on the wrapper
returns exactly the underlying raw record value for that name, and
construction stores the raw record unchanged (the embedding is pure:
no operation produces a modified raw record). -/
theorem bugwrapper_delegation (tok : Nat) (raw : RawBug) (loose : List String)
    (name : String) (h : name ∉ loose) :
    (BugWrapper.init tok raw loose).getattr name = raw.getattr name
    ∧ (BugWrapper.init tok raw loose)._bug = raw := by
  constructor
  · simp [BugWrapper.getattr, BugWrapper.init, alookup_instdict_none name loose h]
  · rfl

theorem bugwrapper_delegation_witness :
    (BugWrapper.init 0 exRawFixedIn ["fixed_in"]).getattr "summary" =
      exRawFixedIn.getattr "summary"
    ∧ (BugWrapper.init 0 exRawFixedIn ["fixed_in"])._bug = exRawFixedIn :=
  bugwrapper_delegation 0 exRawFixedIn ["fixed_in"] "summary" (by decide)

/- ----------------------------------------------------------------
C9: collection-phase canonicalization and BugzillaBugs sharing.
---------------------------------------------------------------- -/

theorem argsToInts_mem :
    ∀ (args : List MarkerArg) (xs : List Int), argsToInts args = some xs →
      ∀ n : Int, n ∈ xs ↔ ∃ a ∈ args, markerArgToInt a = some n := by
  intro args
  induction args with
  | nil =>
    intro xs h n
    simp only [argsToInts, Option.some.injEq] at h
    subst h
    simp
  | cons a as ih =>
    intro xs h n
    cases hma : markerArgToInt a with
    | none => simp [argsToInts, hma] at h
    | some m =>
      cases hrest : argsToInts as with
      | none => simp [argsToInts, hma, hrest] at h
      | some ns =>
        simp only [argsToInts, hma, hrest, Option.some.injEq] at h
        subst h
        have ihn := ih ns hrest n
        simp only [List.mem_cons, ihn]
        constructor
        · rintro (rfl | ⟨a2, ha2, hval⟩)
          · exact ⟨a, by simp, hma⟩
          · exact ⟨a2, by simp [ha2], hval⟩
        · rintro ⟨a2, ha2, hval⟩
          rcases ha2 with rfl | h2
          · left
            rw [hma] at hval
            cases hval
            rfl
          · right
            exact ⟨a2, h2, hval⟩

theorem canonBugs_char (args : List MarkerArg) (key : List Int)
    (h : canonBugs args = some key) :
    List.Sorted (fun a b => a ≤ b) key ∧ key.Nodup ∧
      ∀ n : Int, n ∈ key ↔ ∃ a ∈ args, markerArgToInt a = some n := by
  obtain ⟨xs, hxs, hkey⟩ :
      ∃ xs, argsToInts args = some xs ∧
        key = List.insertionSort (fun a b => a ≤ b) xs.dedup := by
    cases hx : argsToInts args with
    | none => simp [canonBugs, hx] at h
    | some xs =>
      have h2 : List.insertionSort (fun a b => a ≤ b) xs.dedup = key := by
        simpa [canonBugs, hx, Option.map] using h
      exact ⟨xs, rfl, h2.symm⟩
  subst hkey
  refine ⟨List.sorted_insertionSort _ _, ?_, ?_⟩
  · exact ((List.perm_insertionSort _ _).nodup_iff).mpr (List.nodup_dedup xs)
  · intro n
    rw [(List.perm_insertionSort _ _).mem_iff, List.mem_dedup]
    exact argsToInts_mem args xs hxs n

theorem canonBugs_ext (args1 args2 : List MarkerArg) (key1 key2 : List Int)
    (h1 : canonBugs args1 = some key1) (h2 : canonBugs args2 = some key2)
    (hset : ∀ n : Int, (∃ a ∈ args1, markerArgToInt a = some n) ↔
                       (∃ a ∈ args2, markerArgToInt a = some n)) :
    key1 = key2 := by
  obtain ⟨hs1, hn1, hm1⟩ := canonBugs_char args1 key1 h1
  obtain ⟨hs2, hn2, hm2⟩ := canonBugs_char args2 key2 h2
  have hperm : key1.Perm key2 :=
    (List.perm_ext_iff_of_nodup hn1 hn2).mpr
      (fun n => (hm1 n).trans ((hset n).trans (hm2 n).symm))
  exact List.eq_of_perm_of_sorted hperm hs1 hs2

theorem collect_stable :
    ∀ (items : List (List MarkerArg)) (cache : BugsetCache) (next : Nat)
      (key : List Int) (t : Nat), alookup cache key = some t →
      ∀ (i : Nat) (args : List MarkerArg), items[i]? = some args →
        canonBugs args = some key →
        (pytest_collection_modifyitems items cache next)[i]? = some (some (key, t)) := by
  intro items
  induction items with
  | nil =>
    intro cache next key t hc i args hi
    simp at hi
  | cons a rest ih =>
    intro cache next key t hc i args hi hk
    cases i with
    | zero =>
      simp only [List.getElem?_cons_zero, Option.some.injEq] at hi
      subst hi
      simp [pytest_collection_modifyitems, hk, hc]
    | succ n =>
      simp only [List.getElem?_cons_succ] at hi
      cases hca : canonBugs a with
      | none =>
        simp only [pytest_collection_modifyitems, hca, List.getElem?_cons_succ]
        exact ih cache next key t hc n args hi hk
      | some key2 =>
        cases hl : alookup cache key2 with
        | some t2 =>
          simp only [pytest_collection_modifyitems, hca, hl, List.getElem?_cons_succ]
          exact ih cache next key t hc n args hi hk
        | none =>
          simp only [pytest_collection_modifyitems, hca, hl, List.getElem?_cons_succ]
          have hne : ¬(key2 == key) = true := by
            simp only [beq_iff_eq]
            intro he
            rw [he, hc] at hl
            cases hl
          have hc2 : alookup ((key2, next) :: cache) key = some t := by
            simp [alookup, hne, hc]
          exact ih ((key2, next) :: cache) (next + 1) key t hc2 n args hi hk

theorem collect_shares :
    ∀ (items : List (List MarkerArg)) (cache : BugsetCache) (next : Nat)
      (i j : Nat) (args1 args2 : List MarkerArg) (key : List Int),
      items[i]? = some args1 → items[j]? = some args2 →
      canonBugs args1 = some key → canonBugs args2 = some key →
      ∃ t : Nat,
        (pytest_collection_modifyitems items cache next)[i]? = some (some (key, t))
        ∧ (pytest_collection_modifyitems items cache next)[j]? = some (some (key, t)) := by
  intro items
  induction items with
  | nil =>
    intro cache next i j args1 args2 key hi
    simp at hi
  | cons a rest ih =>
    intro cache next i j args1 args2 key hi hj hk1 hk2
    cases i with
    | zero =>
      simp only [List.getElem?_cons_zero, Option.some.injEq] at hi
      subst hi
      cases hl : alookup cache key with
      | some t =>
        refine ⟨t, by simp [pytest_collection_modifyitems, hk1, hl], ?_⟩
        cases j with
        | zero => simp [pytest_collection_modifyitems, hk1, hl]
        | succ m =>
          simp only [List.getElem?_cons_succ] at hj
          simp only [pytest_collection_modifyitems, hk1, hl, List.getElem?_cons_succ]
          exact collect_stable rest cache next key t hl m args2 hj hk2
      | none =>
        refine ⟨next, by simp [pytest_collection_modifyitems, hk1, hl], ?_⟩
        cases j with
        | zero => simp [pytest_collection_modifyitems, hk1, hl]
        | succ m =>
          simp only [List.getElem?_cons_succ] at hj
          simp only [pytest_collection_modifyitems, hk1, hl, List.getElem?_cons_succ]
          have hc2 : alookup ((key, next) :: cache) key = some next := by simp [alookup]
          exact collect_stable rest ((key, next) :: cache) (next + 1) key next hc2 m args2 hj hk2
    | succ n =>
      cases j with
      | zero =>
        simp only [List.getElem?_cons_zero, Option.some.injEq] at hj
        subst hj
        simp only [List.getElem?_cons_succ] at hi
        cases hl : alookup cache key with
        | some t =>
          refine ⟨t, ?_, by simp [pytest_collection_modifyitems, hk2, hl]⟩
          simp only [pytest_collection_modifyitems, hk2, hl, List.getElem?_cons_succ]
          exact collect_stable rest cache next key t hl n args1 hi hk1
        | none =>
          refine ⟨next, ?_, by simp [pytest_collection_modifyitems, hk2, hl]⟩
          simp only [pytest_collection_modifyitems, hk2, hl, List.getElem?_cons_succ]
          have hc2 : alookup ((key, next) :: cache) key = some next := by simp [alookup]
          exact collect_stable rest ((key, next) :: cache) (next + 1) key next hc2 n args1 hi hk1
      | succ m =>
        simp only [List.getElem?_cons_succ] at hi hj
        cases hca : canonBugs a with
        | none =>
          obtain ⟨t, hres1, hres2⟩ := ih cache next n m args1 args2 key hi hj hk1 hk2
          refine ⟨t, ?_, ?_⟩
          · simp only [pytest_collection_modifyitems, hca, List.getElem?_cons_succ]
            exact hres1
          · simp only [pytest_collection_modifyitems, hca, List.getElem?_cons_succ]
            exact hres2
        | some key2 =>
          cases hl : alookup cache key2 with
          | some t2 =>
            obtain ⟨t, hres1, hres2⟩ := ih cache next n m args1 args2 key hi hj hk1 hk2
            refine ⟨t, ?_, ?_⟩
            · simp only [pytest_collection_modifyitems, hca, hl, List.getElem?_cons_succ]
              exact hres1
            · simp only [pytest_collection_modifyitems, hca, hl, List.getElem?_cons_succ]
              exact hres2
          | none =>
            obtain ⟨t, hres1, hres2⟩ :=
              ih ((key2, next) :: cache) (next + 1) n m args1 args2 key hi hj hk1 hk2
            refine ⟨t, ?_, ?_⟩
            · simp only [pytest_collection_modifyitems, hca, hl, List.getElem?_cons_succ]
              exact hres1
            · simp only [pytest_collection_modifyitems, hca, hl, List.getElem?_cons_succ]
              exact hres2

/-- C9: the collection hook normalizes the declared bug ids of a test
(string or integer form) to integers, deduplicates them, and sorts
them into a canonical ascending list; two arg lists naming the same
ids, in any order and any mix of forms, canonicalize to the same key;
and any two marked items whose arg lists canonicalize to the same key
are attached the same `BugzillaBugs` instance (same creation index)
for that key. -/
theorem collection_canonical_sharing (items : List (List MarkerArg)) :
    (∀ (args : List MarkerArg) (key : List Int), canonBugs args = some key →
        List.Sorted (fun a b => a ≤ b) key ∧ key.Nodup ∧
          (∀ n : Int, n ∈ key ↔ ∃ a ∈ args, markerArgToInt a = some n))
    ∧ (∀ (args1 args2 : List MarkerArg) (key1 key2 : List Int),
        canonBugs args1 = some key1 → canonBugs args2 = some key2 →
        (∀ n : Int, (∃ a ∈ args1, markerArgToInt a = some n) ↔
                    (∃ a ∈ args2, markerArgToInt a = some n)) →
        key1 = key2)
    ∧ (∀ (i j : Nat) (args1 args2 : List MarkerArg) (key : List Int),
        items[i]? = some args1 → items[j]? = some args2 →
        canonBugs args1 = some key → canonBugs args2 = some key →
        ∃ t : Nat,
          (pytest_collection_modifyitems items [] 0)[i]? = some (some (key, t))
          ∧ (pytest_collection_modifyitems items [] 0)[j]? = some (some (key, t))) :=
  ⟨canonBugs_char, canonBugs_ext,
   fun i j args1 args2 key hi hj h1 h2 =>
     collect_shares items [] 0 i j args1 args2 key hi hj h1 h2⟩

def exArgsA : List MarkerArg := [MarkerArg.astr "3456", MarkerArg.aint 1234]

def exArgsB : List MarkerArg :=
  [MarkerArg.aint 3456, MarkerArg.astr "1234", MarkerArg.aint 1234]

theorem collection_canonical_sharing_witness :
    [exArgsA, exArgsB][0]? = some exArgsA
    ∧ [exArgsA, exArgsB][1]? = some exArgsB
    ∧ canonBugs exArgsA = some [1234, 3456]
    ∧ canonBugs exArgsB = some [1234, 3456]
    ∧ ∃ t : Nat,
        (pytest_collection_modifyitems [exArgsA, exArgsB] [] 0)[0]? =
          some (some ([1234, 3456], t))
        ∧ (pytest_collection_modifyitems [exArgsA, exArgsB] [] 0)[1]? =
          some (some ([1234, 3456], t)) :=
  ⟨by decide, by decide, by decide, by decide,
   (collection_canonical_sharing [exArgsA, exArgsB]).2.2 0 1 exArgsA exArgsB
     [1234, 3456] (by decide) (by decide) (by decide) (by decide)⟩
